import Mathlib

/-!
Verification of the FHD historical-data exporter.

The development shallowly embeds the core of the repository:

* `src/utils/time_utils.py` — timestamp rounding and daily time-window
  splitting.  Python `datetime` values are modelled as counts of seconds
  (`Nat` for naive wall-clock times, `Int` for timezone-aware instants):
  `day = t / 86400`, `hour = t / 3600 % 24`, `minute = t / 60 % 60`,
  `second = t % 60`.  `timedelta` arithmetic is plain addition, which is
  exactly how Python's bounded `datetime` behaves inside its range.
* `src/vendor/poseidon/poseidon.py` — request signing (`_create_signature`,
  `urlopen` header construction) with genuine SHA-256, HMAC and base64.
* `src/pages/export_historical_data.py` — the fetch orchestration
  (`_safe_a_urlopen` + `asyncio.gather`) and the normalizer / pivot
  (`transform_json_list` with pandas `pivot_table(aggfunc='first')`).
-/

namespace FHD

/-! ## `src/utils/time_utils.py` -/

/-- `round_to_nearest_interval(dt, interval)` from `src/utils/time_utils.py`.

`dt` is a naive local datetime as seconds since an epoch midnight.
The Python test `dt.minute % interval >= (interval / 2)` uses float
division, which on integer minutes is `interval ≤ 2 * (minute % interval)`.
`dt.replace(minute=0, second=0, microsecond=0)` is `dt - dt % 3600`;
`+ timedelta(minutes=minutes)` is `+ minutes * 60`.  The final
`if dt.minute >= 60` branch of the source is kept verbatim (adding one hour
and then `replace(minute=0)`), even though a `datetime`'s `minute`
attribute is always `< 60` after `timedelta` addition. -/
def round_to_nearest_interval (dt : Nat) (interval : Nat) : Nat :=
  let minutes := (dt / 60 % 60 / interval) * interval
  let minutes := if interval ≤ 2 * (dt / 60 % 60 % interval) then minutes + interval else minutes
  let dt2 := dt - dt % 3600 + minutes * 60
  if 60 ≤ dt2 / 60 % 60 then
    let dt3 := dt2 + 3600
    dt3 - dt3 / 60 % 60 * 60
  else dt2

/-- `split_into_daily_intervals` from `src/utils/time_utils.py`, after ISO
parsing: instants are seconds (`Int`, timezone-aware instants on a common
offset), `timedelta(days=1)` is `86400`. -/
def split_into_daily_intervals (start_time end_time : Int) : List (Int × Int) :=
  if _h : start_time < end_time then
    let current_end := min (start_time + 86400) end_time
    (start_time, current_end) :: split_into_daily_intervals current_end end_time
  else
    []
termination_by (end_time - start_time).toNat
decreasing_by
  simp only [current_end, min_def]
  split <;> omega

/-! ## Claims about `round_to_nearest_interval` -/

/-- C3: for every whole-minute local timestamp and every supported interval,
`round_to_nearest_interval` zeroes seconds and sets the minute to
`floor(minute / interval) * interval`, advanced by one interval exactly when
`minute mod interval ≥ interval / 2` (round-half-up). -/
theorem c3_round_half_up (dt i : Nat)
    (hi : i = 1 ∨ i = 5 ∨ i = 10 ∨ i = 15 ∨ i = 30 ∨ i = 60)
    (_hdt : dt % 60 = 0) :
    round_to_nearest_interval dt i =
      dt - dt % 3600 +
        (dt / 60 % 60 / i * i + if i ≤ 2 * (dt / 60 % 60 % i) then i else 0) * 60 := by
  rcases hi with rfl | rfl | rfl | rfl | rfl | rfl <;>
    · simp only [round_to_nearest_interval]
      split_ifs <;> omega

/-- Witness for C3 at the spec's own examples: rounding `10:02:00` by 5
minutes gives `10:00:00`, and `10:03:00` gives `10:05:00`. -/
theorem c3_round_half_up_witness :
    round_to_nearest_interval 36120 5 =
      36120 - 36120 % 3600 +
        (36120 / 60 % 60 / 5 * 5 + if 5 ≤ 2 * (36120 / 60 % 60 % 5) then 5 else 0) * 60 ∧
    round_to_nearest_interval 36120 5 = 36000 ∧
    round_to_nearest_interval 36180 5 = 36300 :=
  ⟨c3_round_half_up 36120 5 (by norm_num) (by decide), by decide, by decide⟩

/-- C4 counterexample: rounding `23:58:00` (day 0) by 5 minutes yields
`86400`, i.e. `00:00:00` of day 1 — the calendar day IS advanced, refuting
the claimed "boundary gap" that the result stays on the same calendar day. -/
theorem c4_counterexample :
    round_to_nearest_interval (23 * 3600 + 58 * 60) 5 = 86400 ∧
    ¬ round_to_nearest_interval (23 * 3600 + 58 * 60) 5 / 86400 =
        (23 * 3600 + 58 * 60) / 86400 := by
  decide

/-- C4 (amended): when rounding advances the minute bucket to 60, the result
is the start of the next hour (minute 0), and when this happens at hour 23
the calendar day IS advanced by one. -/
theorem c4_rollover_advances_day (dt i : Nat)
    (hi : i = 1 ∨ i = 5 ∨ i = 10 ∨ i = 15 ∨ i = 30 ∨ i = 60)
    (hadv : i ≤ 2 * (dt / 60 % 60 % i))
    (hbucket : dt / 60 % 60 / i * i + i = 60) :
    round_to_nearest_interval dt i = dt - dt % 3600 + 3600 ∧
    round_to_nearest_interval dt i / 60 % 60 = 0 ∧
    (dt / 3600 % 24 = 23 → round_to_nearest_interval dt i / 86400 = dt / 86400 + 1) := by
  rcases hi with rfl | rfl | rfl | rfl | rfl | rfl <;>
    · simp only [round_to_nearest_interval]
      split_ifs <;> omega

/-- Witness for the amended C4 at `23:58:00`, interval 5. -/
theorem c4_rollover_advances_day_witness :
    round_to_nearest_interval 86280 5 = 86280 - 86280 % 3600 + 3600 ∧
    round_to_nearest_interval 86280 5 / 60 % 60 = 0 ∧
    (86280 / 3600 % 24 = 23 → round_to_nearest_interval 86280 5 / 86400 = 86280 / 86400 + 1) :=
  c4_rollover_advances_day 86280 5 (by norm_num) (by decide) (by decide)

/-- A timestamp whose seconds are zero and whose minute is a multiple of the
interval is a fixed point of `round_to_nearest_interval`. -/
lemma round_eq_self (r i : Nat) (hpos : 0 < i) (hsec : r % 60 = 0)
    (hmin : r / 60 % 60 % i = 0) :
    round_to_nearest_interval r i = r := by
  simp only [round_to_nearest_interval]
  rw [Nat.div_mul_cancel (Nat.dvd_of_mod_eq_zero hmin), hmin,
    if_neg (by omega : ¬ i ≤ 2 * 0)]
  split_ifs <;> omega

/-- For every supported interval, the output of `round_to_nearest_interval`
has zero seconds and a minute that is a multiple of the interval. -/
lemma round_shape (dt i : Nat)
    (hi : i = 1 ∨ i = 5 ∨ i = 10 ∨ i = 15 ∨ i = 30 ∨ i = 60) :
    round_to_nearest_interval dt i % 60 = 0 ∧
      round_to_nearest_interval dt i / 60 % 60 % i = 0 := by
  rcases hi with rfl | rfl | rfl | rfl | rfl | rfl <;>
    · simp only [round_to_nearest_interval]
      split_ifs <;> omega

/-- C10: rounding is idempotent for every supported interval. -/
theorem c10_round_idempotent (dt i : Nat)
    (hi : i = 1 ∨ i = 5 ∨ i = 10 ∨ i = 15 ∨ i = 30 ∨ i = 60) :
    round_to_nearest_interval (round_to_nearest_interval dt i) i =
      round_to_nearest_interval dt i := by
  have hs := round_shape dt i hi
  have hpos : 0 < i := by rcases hi with rfl | rfl | rfl | rfl | rfl | rfl <;> norm_num
  exact round_eq_self _ i hpos hs.1 hs.2

/-- Witness for C10 at `10:03:00`, interval 5. -/
theorem c10_round_idempotent_witness :
    round_to_nearest_interval (round_to_nearest_interval 36180 5) 5 =
      round_to_nearest_interval 36180 5 :=
  c10_round_idempotent 36180 5 (by norm_num)

/-! ## Claims about `split_into_daily_intervals` -/

/-- Unfolding equation of `split_into_daily_intervals` in the recursive case. -/
lemma split_eq_cons (s e : Int) (h : s < e) :
    split_into_daily_intervals s e =
      (s, min (s + 86400) e) :: split_into_daily_intervals (min (s + 86400) e) e := by
  rw [split_into_daily_intervals]
  simp [h]

/-- Every produced window lies inside `[s, e)`, is nonempty, and spans at
most 24 hours. -/
lemma split_mem_bounds (s e : Int) :
    ∀ w ∈ split_into_daily_intervals s e,
      s ≤ w.1 ∧ w.1 < w.2 ∧ w.2 ≤ e ∧ w.2 - w.1 ≤ 86400 := by
  induction s, e using split_into_daily_intervals.induct with
  | case1 s e h ce ih =>
    have hce : ce = min (s + 86400) e := rfl
    rw [split_eq_cons s e h]
    intro w hw
    rw [List.mem_cons] at hw
    rcases hw with rfl | hw
    · show s ≤ s ∧ s < min (s + 86400) e ∧ min (s + 86400) e ≤ e ∧
        min (s + 86400) e - s ≤ 86400
      omega
    · have hb := ih w (by rw [hce]; exact hw)
      rw [hce] at hb
      exact ⟨by have := hb.1; omega, hb.2.1, hb.2.2.1, hb.2.2.2⟩
  | case2 s e h =>
    rw [split_into_daily_intervals, dif_neg h]
    intro w hw
    exact absurd hw (List.not_mem_nil w)

/-- Consecutive windows share a boundary: each window's end is the next
window's start. -/
lemma split_chain (s e : Int) :
    List.Chain' (fun a b : Int × Int => a.2 = b.1) (split_into_daily_intervals s e) := by
  induction s, e using split_into_daily_intervals.induct with
  | case1 s e h ce ih =>
    have hce : ce = min (s + 86400) e := rfl
    rw [split_eq_cons s e h, List.chain'_cons']
    refine ⟨?_, by rw [hce] at ih; exact ih⟩
    intro b hb
    by_cases h2 : min (s + 86400) e < e
    · rw [split_eq_cons _ e h2] at hb
      simp only [List.head?_cons, Option.mem_some_iff] at hb
      rw [← hb]
    · rw [split_into_daily_intervals, dif_neg h2] at hb
      simp at hb
  | case2 s e h =>
    rw [split_into_daily_intervals, dif_neg h]
    exact List.chain'_nil

/-- The last produced window ends exactly at `e`. -/
lemma split_getLast (s e : Int) :
    s < e → (split_into_daily_intervals s e).getLast?.map Prod.snd = some e := by
  induction s, e using split_into_daily_intervals.induct with
  | case1 s e h1 ce ih =>
    have hce : ce = min (s + 86400) e := rfl
    rw [hce] at ih
    intro _
    by_cases h2 : min (s + 86400) e < e
    · have ihh := ih h2
      rw [split_eq_cons _ e h2] at ihh
      rw [split_eq_cons s e h1, split_eq_cons _ e h2, List.getLast?_cons_cons]
      exact ihh
    · have hmin : min (s + 86400) e = e := by omega
      have hnil : split_into_daily_intervals (min (s + 86400) e) e = [] := by
        rw [split_into_daily_intervals, dif_neg h2]
      rw [split_eq_cons s e h1, hnil, hmin]
      rfl
  | case2 s e h1 =>
    intro h
    exact absurd h h1

/-- Window start instants are strictly increasing. -/
lemma split_pairwise (s e : Int) :
    List.Pairwise (fun a b : Int × Int => a.1 < b.1) (split_into_daily_intervals s e) := by
  induction s, e using split_into_daily_intervals.induct with
  | case1 s e h ce ih =>
    have hce : ce = min (s + 86400) e := rfl
    rw [hce] at ih
    rw [split_eq_cons s e h]
    refine List.Pairwise.cons ?_ ih
    intro w hw
    have hb := split_mem_bounds _ _ w hw
    have h1 := hb.1
    show s < w.1
    omega
  | case2 s e h =>
    rw [split_into_daily_intervals, dif_neg h]
    exact List.Pairwise.nil

/-- C1: for `start < end`, `split_into_daily_intervals` exactly partitions
`[start, end)`: the first window starts at `start`, the last ends at `end`,
each window's end equals the next window's start (no gaps, no overlaps),
windows are in ascending order, and every window spans at most 24 hours. -/
theorem c1_split_partitions (s e : Int) (h : s < e) :
    (split_into_daily_intervals s e).head?.map Prod.fst = some s ∧
    (split_into_daily_intervals s e).getLast?.map Prod.snd = some e ∧
    List.Chain' (fun a b : Int × Int => a.2 = b.1) (split_into_daily_intervals s e) ∧
    List.Pairwise (fun a b : Int × Int => a.1 < b.1) (split_into_daily_intervals s e) ∧
    ∀ w ∈ split_into_daily_intervals s e, w.1 < w.2 ∧ w.2 - w.1 ≤ 86400 :=
  ⟨by rw [split_eq_cons s e h]; rfl,
   split_getLast s e h,
   split_chain s e,
   split_pairwise s e,
   fun w hw => ⟨(split_mem_bounds s e w hw).2.1, (split_mem_bounds s e w hw).2.2.2⟩⟩

/-- Witness for C1 on the concrete range `[0, 200000)` (three windows). -/
theorem c1_split_partitions_witness :
    (split_into_daily_intervals 0 200000).head?.map Prod.fst = some 0 ∧
    (split_into_daily_intervals 0 200000).getLast?.map Prod.snd = some 200000 ∧
    List.Chain' (fun a b : Int × Int => a.2 = b.1) (split_into_daily_intervals 0 200000) ∧
    List.Pairwise (fun a b : Int × Int => a.1 < b.1) (split_into_daily_intervals 0 200000) ∧
    ∀ w ∈ split_into_daily_intervals 0 200000, w.1 < w.2 ∧ w.2 - w.1 ≤ 86400 :=
  c1_split_partitions 0 200000 (by norm_num)

/-- C9: when `start ≥ end`, `split_into_daily_intervals` is empty. -/
theorem c9_split_empty (s e : Int) (h : e ≤ s) : split_into_daily_intervals s e = [] := by
  rw [split_into_daily_intervals, dif_neg (by omega : ¬ s < e)]

/-- Witness for C9: `split(t, t)` and `split(t, t - ε)` are empty. -/
theorem c9_split_empty_witness :
    split_into_daily_intervals 5 5 = [] ∧ split_into_daily_intervals 5 4 = [] :=
  ⟨c9_split_empty 5 5 (by norm_num), c9_split_empty 5 4 (by norm_num)⟩

/-! ## `src/vendor/poseidon/poseidon.py` — request signing

`_create_signature` computes `base64(HMAC-SHA256(secret, timestamp))` via
Python's `hmac`/`hashlib`/`base64` libraries; those primitives are embedded
here in full (FIPS 180-4 SHA-256, RFC 2104 HMAC, RFC 4648 base64).
Bytes are naturals `< 256`; 32-bit words are naturals reduced mod `2^32`.
-/

/-- Reduce to a 32-bit word. -/
def w32 (x : Nat) : Nat := x % 4294967296

/-- 32-bit right rotation. -/
def rotr32 (n x : Nat) : Nat := w32 ((x >>> n) ||| (x <<< (32 - n)))

/-- SHA-256 round constants (FIPS 180-4 §4.2.2). -/
def shaK : List Nat :=
  [1116352408, 1899447441, 3049323471, 3921009573, 961987163, 1508970993,
   2453635748, 2870763221, 3624381080, 310598401, 607225278, 1426881987,
   1925078388, 2162078206, 2614888103, 3248222580, 3835390401, 4022224774,
   264347078, 604807628, 770255983, 1249150122, 1555081692, 1996064986,
   2554220882, 2821834349, 2952996808, 3210313671, 3336571891, 3584528711,
   113926993, 338241895, 666307205, 773529912, 1294757372, 1396182291,
   1695183700, 1986661051, 2177026350, 2456956037, 2730485921, 2820302411,
   3259730800, 3345764771, 3516065817, 3600352804, 4094571909, 275423344,
   430227734, 506948616, 659060556, 883997877, 958139571, 1322822218,
   1537002063, 1747873779, 1955562222, 2024104815, 2227730452, 2361852424,
   2428436474, 2756734187, 3204031479, 3329325298]

/-- SHA-256 initial hash value (FIPS 180-4 §5.3.3). -/
def shaH0 : List Nat :=
  [1779033703, 3144134277, 1013904242, 2773480762,
   1359893119, 2600822924, 528734635, 1541459225]

/-- Big-endian byte serialization of `x` into `n` bytes. -/
def bigEndianBytes (n x : Nat) : List Nat :=
  (List.range n).map (fun i => (x >>> (8 * (n - 1 - i))) % 256)

/-- SHA-256 message padding: append `0x80`, zeros, and the 64-bit
big-endian bit length, to a multiple of 64 bytes. -/
def sha256Pad (msg : List Nat) : List Nat :=
  let k := (56 + 64 - (msg.length + 1) % 64) % 64
  msg ++ 0x80 :: List.replicate k 0 ++ bigEndianBytes 8 (8 * msg.length)

/-- Group bytes into 32-bit big-endian words. -/
def toWords : List Nat → List Nat
  | b0 :: b1 :: b2 :: b3 :: rest =>
    (((b0 * 256 + b1) * 256 + b2) * 256 + b3) :: toWords rest
  | _ => []

/-- Split a byte list into 64-byte blocks (fueled by the list length). -/
def chunksAux : Nat → List Nat → List (List Nat)
  | 0, _ => []
  | _, [] => []
  | fuel + 1, l => l.take 64 :: chunksAux fuel (l.drop 64)

/-- 64-byte blocks of a byte list. -/
def chunks64 (l : List Nat) : List (List Nat) := chunksAux l.length l

/-- σ₀ (FIPS 180-4 §4.1.2). -/
def smallSigma0 (x : Nat) : Nat := (rotr32 7 x) ^^^ (rotr32 18 x) ^^^ (x >>> 3)

/-- σ₁. -/
def smallSigma1 (x : Nat) : Nat := (rotr32 17 x) ^^^ (rotr32 19 x) ^^^ (x >>> 10)

/-- Σ₀. -/
def bigSigma0 (x : Nat) : Nat := (rotr32 2 x) ^^^ (rotr32 13 x) ^^^ (rotr32 22 x)

/-- Σ₁. -/
def bigSigma1 (x : Nat) : Nat := (rotr32 6 x) ^^^ (rotr32 11 x) ^^^ (rotr32 25 x)

/-- Ch: bitwise choice (`~x` on 32-bit words is `x ^^^ 0xffffffff`). -/
def choose (x y z : Nat) : Nat := (x &&& y) ^^^ ((x ^^^ 0xffffffff) &&& z)

/-- Maj: bitwise majority. -/
def majority (x y z : Nat) : Nat := (x &&& y) ^^^ (x &&& z) ^^^ (y &&& z)

/-- Message-schedule extension; `acc` holds the words produced so far in
reverse, so `W[t-2]`, `W[t-7]`, `W[t-15]`, `W[t-16]` sit at positions
1, 6, 14, 15. -/
def scheduleAux : Nat → List Nat → List Nat
  | 0, acc => acc
  | n + 1, acc =>
    scheduleAux n
      (w32 (smallSigma1 (acc.getD 1 0) + acc.getD 6 0 +
        smallSigma0 (acc.getD 14 0) + acc.getD 15 0) :: acc)

/-- Extend 16 words to the 64-word SHA-256 message schedule. -/
def schedule (ws : List Nat) : List Nat := (scheduleAux 48 ws.reverse).reverse

/-- One round of the SHA-256 compression function on the 8-word state. -/
def compressStep (st : List Nat) (kw : Nat × Nat) : List Nat :=
  match st with
  | [a, b, c, d, e, f, g, h] =>
    let t1 := w32 (h + bigSigma1 e + choose e f g + kw.1 + kw.2)
    let t2 := w32 (bigSigma0 a + majority a b c)
    [w32 (t1 + t2), a, b, c, w32 (d + t1), e, f, g]
  | _ => st

/-- Compress one 64-byte block into the running hash state. -/
def compressBlock (h : List Nat) (block : List Nat) : List Nat :=
  let st := ((shaK.zip (schedule (toWords block))).foldl compressStep h)
  (h.zip st).map (fun p => w32 (p.1 + p.2))

/-- SHA-256 of a byte list, as 32 digest bytes. -/
def sha256 (msg : List Nat) : List Nat :=
  (((chunks64 (sha256Pad msg)).foldl compressBlock shaH0).map
    (bigEndianBytes 4)).flatten

/-- RFC 2104 HMAC-SHA-256 (`hmac.new(key, message, hashlib.sha256).digest()`). -/
def hmacSha256 (key msg : List Nat) : List Nat :=
  let key0 := if 64 < key.length then sha256 key else key
  let keyBlock := key0 ++ List.replicate (64 - key0.length) 0
  let ipad := keyBlock.map (fun b => b ^^^ 0x36)
  let opad := keyBlock.map (fun b => b ^^^ 0x5c)
  sha256 (opad ++ sha256 (ipad ++ msg))

/-- The RFC 4648 base64 alphabet. -/
def base64Alphabet : List Char :=
  "ABCDEFGHIJKLMNOPQRSTUVWXYZabcdefghijklmnopqrstuvwxyz0123456789+/".toList

/-- Character for one 6-bit group. -/
def b64Char (n : Nat) : Char := base64Alphabet.getD n '='

/-- RFC 4648 base64 encoding with `=` padding
(`base64.b64encode(...).decode('utf-8')`). -/
def base64Encode : List Nat → List Char
  | [] => []
  | [b0] =>
    [b64Char (b0 >>> 2), b64Char ((b0 &&& 3) <<< 4), '=', '=']
  | [b0, b1] =>
    [b64Char (b0 >>> 2), b64Char (((b0 &&& 3) <<< 4) ||| (b1 >>> 4)),
     b64Char ((b1 &&& 15) <<< 2), '=']
  | b0 :: b1 :: b2 :: rest =>
    b64Char (b0 >>> 2) :: b64Char (((b0 &&& 3) <<< 4) ||| (b1 >>> 4)) ::
      b64Char ((((b1 &&& 15) <<< 2) ||| (b2 >>> 6))) :: b64Char (b2 &&& 63) ::
      base64Encode rest

/-- UTF-8 encoding of a string (`str.encode('utf-8')`). -/
def utf8Encode (s : String) : List Nat := s.toUTF8.toList.map (fun b => b.toNat)

/-- `_create_signature(secret_key, timestamp)` from
`src/vendor/poseidon/poseidon.py`. -/
def create_signature (secret_key timestamp : String) : String :=
  String.mk (base64Encode (hmacSha256 (utf8Encode secret_key) (utf8Encode timestamp)))

/-- The HTTP headers set by `poseidon.urlopen`. -/
structure PoseidonHeaders where
  contentType : String
  authorization : String
  timestamp : String
  signature : String
  deriving Repr, DecidableEq

/-- The `urllib.request.Request` built by `poseidon.urlopen`. -/
structure PoseidonRequest where
  url : String
  body : Option String
  headers : PoseidonHeaders
  deriving Repr, DecidableEq

/-- The request constructed by `poseidon.urlopen(access_key, secret_key,
url, data)`, with the current-millisecond `timestamp` passed explicitly
(`str(int(time.time() * 1000))`) and the JSON-serialized body kept
opaque (`json.dumps(data) if data else None`). -/
def urlopen_request (access_key secret_key url : String) (data : Option String)
    (timestamp : String) : PoseidonRequest :=
  { url := url
    body := data
    headers :=
      { contentType := "application/json"
        authorization := "AccessKey " ++ access_key
        timestamp := timestamp
        signature := create_signature secret_key timestamp } }

/-- FIPS 180-4 test vector: `SHA-256("abc")`, validating the embedded hash. -/
theorem sha256_nist_abc :
    sha256 [0x61, 0x62, 0x63] =
      [0xba, 0x78, 0x16, 0xbf, 0x8f, 0x01, 0xcf, 0xea, 0x41, 0x41, 0x40, 0xde,
       0x5d, 0xae, 0x22, 0x23, 0xb0, 0x03, 0x61, 0xa3, 0x96, 0x17, 0x7a, 0x9c,
       0xb4, 0x10, 0xff, 0x61, 0xf2, 0x00, 0x15, 0xad] := by
  decide

/-- RFC 4648 test vectors for the embedded base64 encoder. -/
theorem base64_rfc4648_vectors :
    String.mk (base64Encode [0x4d, 0x61, 0x6e]) = "TWFu" ∧
    String.mk (base64Encode [0x4d, 0x61]) = "TWE=" ∧
    String.mk (base64Encode [0x4d]) = "TQ==" := by
  refine ⟨rfl, rfl, rfl⟩

/-- C5: the request signature is `base64(HMAC-SHA256(secret, timestamp))`,
a pure function of the secret and timestamp only — two requests with the
same secret and timestamp but different URL or body carry the identical
signature; the body and URL are not covered. -/
theorem c5_signature_pure_of_secret_timestamp
    (access_key secret_key url₁ url₂ : String) (data₁ data₂ : Option String)
    (timestamp : String) :
    (urlopen_request access_key secret_key url₁ data₁ timestamp).headers.signature =
      String.mk (base64Encode (hmacSha256 (utf8Encode secret_key) (utf8Encode timestamp))) ∧
    (urlopen_request access_key secret_key url₁ data₁ timestamp).headers.signature =
      (urlopen_request access_key secret_key url₂ data₂ timestamp).headers.signature :=
  ⟨rfl, rfl⟩

/-! ## `src/pages/export_historical_data.py` — normalizer / pivot

`transform_json_list` walks the per-window response lists in order, extracts
the dynamically-named measurement field of each sample record, rounds the
record's `localtime`, and pivots the flat list into a wide table via pandas
`pivot_table(index='localtime', columns='pointId', values='pointValue',
aggfunc='first')`.

Sample records are insertion-ordered association lists (Python dicts
preserve insertion order, which `next(key for key in nested_json ...)`
iterates in).  A well-formed `"%Y-%m-%d %H:%M:%S"` local-time string is
`JVal.dt secs` carrying its seconds count; formatting and parsing of such
fixed-width strings is order- and equality-isomorphic to the count, so the
pivot's string row keys are kept as `Nat` seconds.
-/

/-- A JSON scalar inside a sample record. -/
inductive JVal where
  | str (v : String)
  | num (v : Int)
  | dt (secs : Nat)
  deriving Repr, DecidableEq

/-- A sample record: a JSON object, insertion-ordered. -/
abbrev SampleRecord := List (String × JVal)

/-- `nested_json.get(k)`: the value at key `k`, or `None`. -/
def dictGet (r : SampleRecord) (k : String) : Option JVal :=
  (r.find? (fun kv => kv.1 == k)).map (fun kv => kv.2)

/-- `next((key for key in nested_json if key not in ['assetId', 'timestamp',
'localtime']), None)`: the first key that is none of the reserved names. -/
def pointIdOf (r : SampleRecord) : Option String :=
  (r.find? (fun kv => !(["assetId", "timestamp", "localtime"].contains kv.1))).map
    (fun kv => kv.1)

/-- `datetime.strptime(value, "%Y-%m-%d %H:%M:%S")`: succeeds exactly on a
well-formed local-time string; a missing field (`None`) raises `TypeError`
and any other value raises `ValueError`, aborting the transform. -/
def strptime : Option JVal → Except String Nat
  | some (.dt n) => .ok n
  | some _ => .error "ValueError"
  | none => .error "TypeError"

/-- One row of the intermediate `transformed_data` DataFrame. -/
structure TRow where
  pointId : Option String
  pointValue : Option JVal
  assetId : Option JVal
  timestamp : Option JVal
  localtime : Nat
  deriving Repr, DecidableEq

/-- The loop body of `transform_json_list` for one sample record. -/
def transformEntry (interval_minutes : Nat) (rec : SampleRecord) :
    Except String TRow :=
  let pid := pointIdOf rec
  let pval := match pid with
    | some p => dictGet rec p
    | none => none
  match strptime (dictGet rec "localtime") with
  | .error e => .error e
  | .ok dtv =>
    .ok { pointId := pid
          pointValue := pval
          assetId := dictGet rec "assetId"
          timestamp := dictGet rec "timestamp"
          localtime := round_to_nearest_interval dtv interval_minutes }

/-- The double loop of `transform_json_list`: windows in order, records in
in-window response order; the first `strptime` failure aborts. -/
def transformLoop (interval_minutes : Nat) : List SampleRecord → Except String (List TRow)
  | [] => .ok []
  | rec :: rest =>
    match transformEntry interval_minutes rec with
    | .error e => .error e
    | .ok r =>
      match transformLoop interval_minutes rest with
      | .error e => .error e
      | .ok rs => .ok (r :: rs)

/-- `transformed_data` built from the nested per-window record lists. -/
def transformEntries (nested : List (List SampleRecord)) (interval_minutes : Nat) :
    Except String (List TRow) :=
  transformLoop interval_minutes nested.flatten

/-- The DataFrame rows pandas `pivot_table` actually groups: `groupby`
drops entries whose `pointId` is missing (`NaN` group key, the default
`dropna=True`). -/
def validRows (td : List TRow) : List TRow :=
  td.filter (fun r => r.pointId.isSome)

/-- Lexicographic comparison of character lists by code point. -/
def charsLe : List Char → List Char → Bool
  | [], _ => true
  | _ :: _, [] => false
  | a :: as, b :: bs =>
    if a.toNat < b.toNat then true
    else if b.toNat < a.toNat then false
    else charsLe as bs

/-- Lexicographic string order (how pandas sorts string column labels). -/
def strLe (a b : String) : Bool := charsLe a.data b.data

/-- The pivot's row index: distinct rounded local times, sorted ascending. -/
def rowKeys (td : List TRow) : List Nat :=
  List.insertionSort (fun a b => a ≤ b) (((validRows td).map (fun r => r.localtime)).dedup)

/-- The pivot's columns: distinct point identifiers, sorted ascending. -/
def colKeys (td : List TRow) : List String :=
  List.insertionSort (fun a b => strLe a b = true)
    (((validRows td).filterMap (fun r => r.pointId)).dedup)

/-- `aggfunc='first'`: the first non-null value among the entries that
collide on `(localtime, pointId)`, in DataFrame (encounter) order. -/
def cellAt (td : List TRow) (t : Nat) (p : String) : Option JVal :=
  ((validRows td).find?
      (fun r => r.localtime == t && r.pointId == some p && r.pointValue.isSome)).bind
    (fun r => r.pointValue)

/-- The wide table `df_pivoted`: one row per rounded timestamp, one column
per point identifier. -/
abbrev WideTable := List (Nat × List (String × Option JVal))

/-- Build the pivot table of the transformed rows. -/
def pivotTable (td : List TRow) : WideTable :=
  (rowKeys td).map (fun t => (t, (colKeys td).map (fun p => (p, cellAt td t p))))

/-- `transform_json_list(asset_name, nested_json_list, asset_id, interval)`:
`none` models the `(None, None)` early returns, `some` the produced table
(the CSV text and filename are presentation of this table). -/
def transform_json_list (nested : List (List SampleRecord)) (interval_minutes : Nat) :
    Except String (Option WideTable) :=
  if nested.length == 0 || nested.all (fun row => row.length == 0) then .ok none
  else
    match transformEntries nested interval_minutes with
    | .error e => .error e
    | .ok td => if td.isEmpty then .ok none else .ok (some (pivotTable td))

/-! ## `src/pages/export_historical_data.py` — fetch orchestration

`_safe_a_urlopen` re-raises any exception of the underlying call; for one
asset, `process_historical_data` awaits `asyncio.gather(*tasks)` (default
`return_exceptions=False`) with one task per daily window, in window order,
then keeps `his_data["data"]["items"]` of the responses whose `data` field
is present and hands them to `transform_json_list`.
-/

/-- Outcome of one window's `_safe_a_urlopen` call: the parsed response
(`some items` for `data.items`, `none` when `data` is null/absent), or the
re-raised exception. -/
abbrev FetchOutcome := Except String (Option (List SampleRecord))

/-- `asyncio.gather(*tasks)` with `return_exceptions=False`: all results in
task order when every task succeeds, otherwise the failure propagates to
the awaiter (deterministized here to the first failing task in task
order — which failure propagates does not matter to the claims). -/
def gather : List FetchOutcome → Except String (List (Option (List SampleRecord)))
  | [] => .ok []
  | t :: ts =>
    match t with
    | .error e => .error e
    | .ok r =>
      match gather ts with
      | .error e => .error e
      | .ok rs => .ok (r :: rs)

/-- The per-asset fragment of `process_historical_data`: await all window
fetches, filter the responses with a present `data` field, and transform. -/
def process_asset_windows (tasks : List FetchOutcome) (interval_minutes : Nat) :
    Except String (Option WideTable) :=
  match gather tasks with
  | .error e => .error e
  | .ok responses => transform_json_list (responses.filterMap id) interval_minutes

/-! ## Concrete sample records shared by the witnesses -/

/-- A sample record carrying measurement field `OAT = 21` at `10:02:00`. -/
def recOAT : SampleRecord :=
  [("assetId", JVal.str "a1"), ("timestamp", JVal.num 100),
   ("OAT", JVal.num 21), ("localtime", JVal.dt 36120)]

/-- A sample record carrying `OAT = 99` at `10:03:00`. -/
def recOAT2 : SampleRecord :=
  [("assetId", JVal.str "a1"), ("timestamp", JVal.num 200),
   ("OAT", JVal.num 99), ("localtime", JVal.dt 36180)]

/-- A sample record carrying `RH = 55` at `10:00:00`. -/
def recRH : SampleRecord :=
  [("assetId", JVal.str "a1"), ("timestamp", JVal.num 300),
   ("RH", JVal.num 55), ("localtime", JVal.dt 36000)]

/-- A sample record with no dynamically-named measurement field. -/
def recNoPoint : SampleRecord :=
  [("assetId", JVal.str "a1"), ("timestamp", JVal.num 400),
   ("localtime", JVal.dt 36000)]

/-! ## Claim C2 — failure semantics of the window fetches -/

/-- `asyncio.gather` propagates a failure when any task failed. -/
lemma gather_error (tasks : List FetchOutcome)
    (h : ∃ e, Except.error e ∈ tasks) :
    ∃ e, gather tasks = Except.error e := by
  induction tasks with
  | nil =>
    obtain ⟨e, he⟩ := h
    exact absurd he (List.not_mem_nil _)
  | cons t ts ih =>
    obtain ⟨e, he⟩ := h
    rw [List.mem_cons] at he
    rcases he with rfl | he
    · exact ⟨e, rfl⟩
    · cases t with
      | error e1 => exact ⟨e1, rfl⟩
      | ok r =>
        obtain ⟨e2, he2⟩ := ih ⟨e, he⟩
        exact ⟨e2, by simp only [gather, he2]⟩

/-- `asyncio.gather` returns all results, in task order, when every task
succeeded. -/
lemma gather_ok (tasks : List FetchOutcome)
    (h : ∀ t ∈ tasks, ∃ r, t = Except.ok r) :
    gather tasks = Except.ok (tasks.filterMap Except.toOption) := by
  induction tasks with
  | nil => rfl
  | cons t ts ih =>
    have hts := ih (fun u hu => h u (List.mem_cons_of_mem t hu))
    obtain ⟨r, rfl⟩ := h t (List.mem_cons_self t ts)
    simp [gather, hts, Except.toOption]

/-- C2 (amended): the orchestrator is fail-fast.  If any window-fetch
fails, `process_historical_data`'s per-asset processing propagates a
failure and produces no per-window results at all; only when every window
succeeds is the asset's table built, from the responses whose `data` field
is present. -/
theorem c2_fail_fast_gather (tasks : List FetchOutcome) (interval_minutes : Nat) :
    ((∃ e, Except.error e ∈ tasks) →
      ∃ e, process_asset_windows tasks interval_minutes = Except.error e) ∧
    ((∀ t ∈ tasks, ∃ r, t = Except.ok r) →
      process_asset_windows tasks interval_minutes =
        transform_json_list ((tasks.filterMap Except.toOption).filterMap id)
          interval_minutes) := by
  constructor
  · intro h
    obtain ⟨e, he⟩ := gather_error tasks h
    exact ⟨e, by simp [process_asset_windows, he]⟩
  · intro h
    simp [process_asset_windows, gather_ok tasks h]

/-- C2 counterexample: with two windows where the first returns one sample
and the second fails, the orchestrator raises the failure instead of
keeping the first window's tagged result — whereas the same successful
window alone does produce an output table.  This refutes the claim that
"the orchestrator never raises for an individual window failure". -/
theorem c2_counterexample :
    process_asset_windows [Except.ok (some [recOAT]), Except.error "URLError"] 5 =
      Except.error "URLError" ∧
    process_asset_windows [Except.ok (some [recOAT])] 5 =
      Except.ok (some [(36000, [("OAT", some (JVal.num 21))])]) := by
  exact ⟨rfl, rfl⟩

/-- Witness for the amended C2 on concrete task lists. -/
theorem c2_fail_fast_gather_witness :
    (∃ e, process_asset_windows [Except.ok (some [recOAT]), Except.error "boom"] 5 =
      Except.error e) ∧
    process_asset_windows [Except.ok (some [recOAT]), Except.ok none] 5 =
      transform_json_list
        ((([Except.ok (some [recOAT]), Except.ok none] : List FetchOutcome).filterMap
            Except.toOption).filterMap id)
        5 :=
  ⟨(c2_fail_fast_gather [Except.ok (some [recOAT]), Except.error "boom"] 5).1
      ⟨"boom", by simp⟩,
   (c2_fail_fast_gather [Except.ok (some [recOAT]), Except.ok none] 5).2
      (by
        intro t ht
        simp only [List.mem_cons, List.not_mem_nil, or_false] at ht
        rcases ht with rfl | rfl <;> exact ⟨_, rfl⟩)⟩

/-! ## Claim C7 — records missing the measurement field -/

/-- The transform loop never fails when every record's `localtime` field is
a well-formed local-time string — a missing measurement field in
particular does not abort the run. -/
lemma transformLoop_ok (interval_minutes : Nat) (l : List SampleRecord)
    (h : ∀ rec ∈ l, ∃ n, dictGet rec "localtime" = some (JVal.dt n)) :
    ∃ td, transformLoop interval_minutes l = Except.ok td := by
  induction l with
  | nil => exact ⟨[], rfl⟩
  | cons rec rest ih =>
    obtain ⟨n, hn⟩ := h rec (List.mem_cons_self rec rest)
    obtain ⟨td, htd⟩ := ih (fun r hr => h r (List.mem_cons_of_mem rec hr))
    cases he : transformEntry interval_minutes rec with
    | error e => exact absurd he (by simp only [transformEntry, hn, strptime]; exact fun h => Except.noConfusion h)
    | ok r => exact ⟨r :: td, by simp only [transformLoop, he, htd]⟩

/-- Entries whose `pointId` is missing contribute nothing to the pivot:
filtering them out of the DataFrame leaves the table unchanged. -/
lemma pivot_ignores_invalid (td : List TRow) :
    pivotTable (td.filter (fun r => r.pointId.isSome)) = pivotTable td := by
  have h : validRows (td.filter (fun r => r.pointId.isSome)) = validRows td := by
    simp [validRows, List.filter_filter]
  simp only [pivotTable, rowKeys, colKeys, cellAt, h]

/-- C7: a sample record missing the dynamically-named measurement field
does not abort the run (the transform still returns a result), and such
records contribute no entry to the output table (removing every
missing-field entry from the DataFrame leaves the pivot unchanged). -/
theorem c7_missing_field_skipped (nested : List (List SampleRecord))
    (interval_minutes : Nat)
    (hlt : ∀ rec ∈ nested.flatten, ∃ n, dictGet rec "localtime" = some (JVal.dt n)) :
    (∃ res, transform_json_list nested interval_minutes = Except.ok res) ∧
    (∀ td, transformEntries nested interval_minutes = Except.ok td →
      pivotTable (td.filter (fun r => r.pointId.isSome)) = pivotTable td) := by
  constructor
  · unfold transform_json_list
    split
    · exact ⟨none, rfl⟩
    · obtain ⟨td, htd⟩ := transformLoop_ok interval_minutes nested.flatten hlt
      unfold transformEntries
      rw [htd]
      by_cases hemp : td.isEmpty
      · exact ⟨none, by simp [hemp]⟩
      · exact ⟨some (pivotTable td), by simp [hemp]⟩
  · intro td _
    exact pivot_ignores_invalid td

/-- Witness for C7: one window holding a normal record and one record with
no measurement field. -/
theorem c7_missing_field_skipped_witness :
    (∃ res, transform_json_list [[recOAT, recNoPoint]] 5 = Except.ok res) ∧
    (∀ td, transformEntries [[recOAT, recNoPoint]] 5 = Except.ok td →
      pivotTable (td.filter (fun r => r.pointId.isSome)) = pivotTable td) :=
  c7_missing_field_skipped [[recOAT, recNoPoint]] 5
    (by
      intro rec hrec
      simp only [List.flatten, List.append_nil, List.mem_cons, List.not_mem_nil,
        or_false] at hrec
      rcases hrec with rfl | rfl
      · exact ⟨36120, rfl⟩
      · exact ⟨36000, rfl⟩)

/-! ## Claim C6 — first encountered sample wins on collision -/

/-- Every transformed row originates from some record of the flattened
(window-ordered) input. -/
lemma transformLoop_mem (interval_minutes : Nat) (l : List SampleRecord)
    (td : List TRow) (h : transformLoop interval_minutes l = Except.ok td) :
    ∀ r ∈ td, ∃ rec ∈ l, transformEntry interval_minutes rec = Except.ok r := by
  induction l generalizing td with
  | nil =>
    simp only [transformLoop, Except.ok.injEq] at h
    subst h
    intro r hr
    exact absurd hr (List.not_mem_nil r)
  | cons rec rest ih =>
    cases he : transformEntry interval_minutes rec with
    | error e =>
      simp only [transformLoop, he] at h
      exact Except.noConfusion h
    | ok r0 =>
      cases hl : transformLoop interval_minutes rest with
      | error e =>
        simp only [transformLoop, he, hl] at h
        exact Except.noConfusion h
      | ok td' =>
        simp only [transformLoop, he, hl, Except.ok.injEq] at h
        subst h
        intro r hr
        rw [List.mem_cons] at hr
        rcases hr with rfl | hr
        · exact ⟨rec, List.mem_cons_self rec rest, he⟩
        · obtain ⟨rec', hrec', hok⟩ := ih td' hl r hr
          exact ⟨rec', List.mem_cons_of_mem rec hrec', hok⟩

/-- A transformed row with a present `pointId` also carries a present
`pointValue`: the dynamic field's key is a key of the record, so
`nested_json.get(point_id)` finds a value. -/
lemma transformEntry_value_present (interval_minutes : Nat) (rec : SampleRecord)
    (r : TRow) (h : transformEntry interval_minutes rec = Except.ok r)
    (p : String) (hp : r.pointId = some p) :
    r.pointValue.isSome := by
  cases hdt : strptime (dictGet rec "localtime") with
  | error e =>
    simp only [transformEntry, hdt] at h
    exact Except.noConfusion h
  | ok n =>
    simp only [transformEntry, hdt, Except.ok.injEq] at h
    subst h
    simp only at hp
    obtain ⟨kv, hkv, hkv1⟩ : ∃ kv, rec.find?
        (fun kv => !(["assetId", "timestamp", "localtime"].contains kv.1)) = some kv ∧
        kv.1 = p := by
      cases hfind : rec.find?
          (fun kv => !(["assetId", "timestamp", "localtime"].contains kv.1)) with
      | none =>
        simp only [pointIdOf, hfind, Option.map_none'] at hp
        exact Option.noConfusion hp
      | some kv =>
        simp only [pointIdOf, hfind, Option.map_some', Option.some.injEq] at hp
        exact ⟨kv, rfl, hp⟩
    have hmem := List.mem_of_find?_eq_some hkv
    obtain ⟨x, hx⟩ : ∃ x, List.find? (fun kv2 => kv2.1 == p) rec = some x := by
      have h2 : (List.find? (fun kv2 => kv2.1 == p) rec).isSome := by
        rw [List.find?_isSome]
        exact ⟨kv, hmem, by simp [hkv1]⟩
      exact Option.isSome_iff_exists.mp h2
    simp only [hp, dictGet, hx, Option.map_some', Option.isSome_some]

/-- `aggfunc='first'` keeps the first matching entry in DataFrame
(encounter) order. -/
lemma cellAt_first (pre post : List TRow) (r1 : TRow) (t : Nat) (p : String)
    (ht : r1.localtime = t) (hp : r1.pointId = some p)
    (hv : r1.pointValue.isSome)
    (hpre : ∀ r ∈ pre, ¬ (r.localtime = t ∧ r.pointId = some p)) :
    cellAt (pre ++ r1 :: post) t p = r1.pointValue := by
  unfold cellAt validRows
  rw [List.filter_append, List.find?_append]
  have h1 : (pre.filter (fun r => r.pointId.isSome)).find?
      (fun r => r.localtime == t && r.pointId == some p && r.pointValue.isSome) =
      none := by
    rw [List.find?_eq_none]
    intro r hr
    have hrm := List.mem_of_mem_filter hr
    have hnr := hpre r hrm
    intro hcontra
    rw [Bool.and_eq_true, Bool.and_eq_true, beq_iff_eq, beq_iff_eq] at hcontra
    exact hnr ⟨hcontra.1.1, hcontra.1.2⟩
  rw [h1, List.filter_cons_of_pos (by simp [hp]),
    List.find?_cons_of_pos _ (by simp [ht, hp, hv])]
  rfl

/-- C6: when several samples collide on the same rounded local time and the
same point identifier, the pivot keeps the value of the sample encountered
first — in window order, then in-window response order (the order of the
transformed DataFrame). -/
theorem c6_first_encountered_wins (nested : List (List SampleRecord))
    (interval_minutes : Nat) (td pre post : List TRow) (r1 : TRow)
    (t : Nat) (p : String)
    (htd : transformEntries nested interval_minutes = Except.ok td)
    (hsplit : td = pre ++ r1 :: post)
    (ht : r1.localtime = t) (hp : r1.pointId = some p)
    (hpre : ∀ r ∈ pre, ¬ (r.localtime = t ∧ r.pointId = some p)) :
    cellAt td t p = r1.pointValue ∧ r1.pointValue.isSome := by
  have hr1mem : r1 ∈ td := by
    rw [hsplit]
    exact List.mem_append_right pre (List.mem_cons_self r1 post)
  obtain ⟨rec, _, hrec⟩ := transformLoop_mem interval_minutes nested.flatten td htd r1 hr1mem
  have hv := transformEntry_value_present interval_minutes rec r1 hrec p hp
  subst hsplit
  exact ⟨cellAt_first pre post r1 t p ht hp hv hpre, hv⟩

/-- The transformed DataFrame for two windows whose samples collide at
`10:00:00` after 60-minute rounding. -/
def tdCollide : List TRow :=
  [{ pointId := some "OAT", pointValue := some (JVal.num 21),
     assetId := some (JVal.str "a1"), timestamp := some (JVal.num 100),
     localtime := 36000 },
   { pointId := some "OAT", pointValue := some (JVal.num 99),
     assetId := some (JVal.str "a1"), timestamp := some (JVal.num 200),
     localtime := 36000 }]

/-- Witness for C6: `recOAT` (value 21, window 1) and `recOAT2` (value 99,
window 2) collide at `10:00:00` under 60-minute rounding; the first
encountered value 21 wins. -/
theorem c6_first_encountered_wins_witness :
    cellAt tdCollide 36000 "OAT" = some (JVal.num 21) ∧
    (some (JVal.num 21) : Option JVal).isSome :=
  c6_first_encountered_wins [[recOAT], [recOAT2]] 60 tdCollide []
    [{ pointId := some "OAT", pointValue := some (JVal.num 99),
       assetId := some (JVal.str "a1"), timestamp := some (JVal.num 200),
       localtime := 36000 }]
    { pointId := some "OAT", pointValue := some (JVal.num 21),
      assetId := some (JVal.str "a1"), timestamp := some (JVal.num 100),
      localtime := 36000 }
    36000 "OAT" rfl rfl rfl rfl
    (by intro r hr; exact absurd hr (List.not_mem_nil r))

/-! ## Claim C8 — pivot rows sorted, one row per rounded timestamp -/

/-- The pivot's row labels are exactly its row keys. -/
lemma pivotTable_map_fst (td : List TRow) :
    (pivotTable td).map Prod.fst = rowKeys td := by
  rw [pivotTable, List.map_map]
  exact List.map_id _

/-- C8: for every produced pivot output, the rows are in strictly ascending
order of the rounded local-time key — in particular there is exactly one
row per distinct rounded timestamp, and the row set is exactly the set of
rounded local times of the valid (pivotable) entries. -/
theorem c8_rows_sorted_unique (nested : List (List SampleRecord))
    (interval_minutes : Nat) (tbl : WideTable)
    (h : transform_json_list nested interval_minutes = Except.ok (some tbl)) :
    List.Sorted (fun a b : Nat => a < b) (tbl.map Prod.fst) ∧
    ∃ td, transformEntries nested interval_minutes = Except.ok td ∧
      ∀ t : Nat, t ∈ tbl.map Prod.fst ↔ ∃ r ∈ validRows td, r.localtime = t := by
  unfold transform_json_list at h
  split at h
  · exact Option.noConfusion (Except.ok.inj h)
  · cases he : transformEntries nested interval_minutes with
    | error e =>
      rw [he] at h
      exact Except.noConfusion h
    | ok td =>
      rw [he] at h
      have h2 : (if td.isEmpty = true then (Except.ok none : Except String (Option WideTable))
          else Except.ok (some (pivotTable td))) = Except.ok (some tbl) := h
      by_cases hemp : td.isEmpty = true
      · rw [if_pos hemp] at h2
        exact Option.noConfusion (Except.ok.inj h2)
      · rw [if_neg hemp] at h2
        have htbl : pivotTable td = tbl := Option.some.inj (Except.ok.inj h2)
        subst htbl
        rw [pivotTable_map_fst]
        have hsort : List.Sorted (fun a b : Nat => a ≤ b) (rowKeys td) :=
          List.sorted_insertionSort _ _
        have hnd : (rowKeys td).Nodup :=
          (List.perm_insertionSort _ _).nodup_iff.mpr
            (List.nodup_dedup _)
        refine ⟨List.Sorted.lt_of_le hsort hnd, td, rfl, fun t => ?_⟩
        rw [rowKeys, (List.perm_insertionSort _ _).mem_iff, List.mem_dedup,
          List.mem_map]

/-- The pivot table produced by the C8 witness input. -/
def tblDemo : WideTable :=
  [(36000, [("OAT", some (JVal.num 21)), ("RH", some (JVal.num 55))]),
   (36300, [("OAT", some (JVal.num 99)), ("RH", none)])]

/-- Witness for C8 on two windows of concrete samples (one record lacking
its measurement field). -/
theorem c8_rows_sorted_unique_witness :
    List.Sorted (fun a b : Nat => a < b) (tblDemo.map Prod.fst) ∧
    ∃ td, transformEntries [[recOAT, recRH], [recOAT2, recNoPoint]] 5 = Except.ok td ∧
      ∀ t : Nat, t ∈ tblDemo.map Prod.fst ↔ ∃ r ∈ validRows td, r.localtime = t :=
  c8_rows_sorted_unique [[recOAT, recRH], [recOAT2, recNoPoint]] 5 tblDemo rfl

end FHD
